import Mathlib

/-!
Shallow embedding of the `demo-bfsi-rag-chat` repository:
a Next.js RAG chat frontend (`my-app/app/page.tsx`) and a catch-all
Next.js API proxy route (`pages/api/[...path].ts`, shipped in the sources
as an unnamed file).  The Python FastAPI backend (`api/index.py`) is not
part of the sources; where a property depends on it, the backend is
modelled from the spec and marked as such in the doc comment.
-/

namespace RagChat

/-- A JSON value, as produced by the JavaScript runtime's JSON parser.
Used to model `response.json()` results, `req.body`, and request bodies
built with `JSON.stringify`. -/
inductive Json where
  | null : Json
  | bool (b : Bool) : Json
  | num (n : Int) : Json
  | str (s : String) : Json
  | arr (xs : List Json) : Json
  | obj (fields : List (String × Json)) : Json
deriving Repr

/-- Field lookup on a JSON object (`data.field` in JS): the first binding
of the key when the value is an object, otherwise absent. -/
def Json.getField : Json → String → Option Json
  | Json.obj fields, key =>
      match fields.find? (fun p => p.fst = key) with
      | some p => some p.snd
      | none => none
  | _, _ => none

/-- JavaScript truthiness of a JSON value (`x ? ... : ...`, `x || y`). -/
def jsTruthy : Json → Bool
  | Json.null => false
  | Json.bool b => b
  | Json.num n => n != 0
  | Json.str s => s != ""
  | Json.arr _ => true
  | Json.obj _ => true

/-- Escape of one character inside a JSON string literal (quote and
backslash; other characters pass through, which matches `JSON.stringify`
on the non-control characters the claims exercise). -/
def jsonEscapeChar (c : Char) : String :=
  if c = '"' then "\\\"" else if c = '\\' then "\\\\" else String.singleton c

/-- A JSON string literal: `JSON.stringify` on a string. -/
def jsonQuote (s : String) : String :=
  "\"" ++ String.join (s.toList.map jsonEscapeChar) ++ "\""

mutual

/-- `JSON.stringify` of a JSON value, as the proxy handler applies it to
`req.body` and the frontend applies it to error bodies without a
`detail` field. -/
def jsonStringify : Json → String
  | Json.null => "null"
  | Json.bool b => cond b "true" "false"
  | Json.num n => toString n
  | Json.str s => jsonQuote s
  | Json.arr xs => "[" ++ jsonStringifyArr xs ++ "]"
  | Json.obj fs => "\x7b" ++ jsonStringifyObj fs ++ "\x7d"

/-- Comma-joined serialization of the elements of a JSON array. -/
def jsonStringifyArr : List Json → String
  | [] => ""
  | [x] => jsonStringify x
  | x :: y :: rest => jsonStringify x ++ "," ++ jsonStringifyArr (y :: rest)

/-- Comma-joined serialization of the fields of a JSON object. -/
def jsonStringifyObj : List (String × Json) → String
  | [] => ""
  | [(k, v)] => jsonQuote k ++ ":" ++ jsonStringify v
  | (k, v) :: p :: rest =>
      jsonQuote k ++ ":" ++ jsonStringify v ++ "," ++ jsonStringifyObj (p :: rest)

end

mutual

/-- JavaScript string coercion `String(x)` of a JSON value, as applied by
`new Error(x).message` when `x` is not already a string. -/
def jsJsonToString : Json → String
  | Json.null => "null"
  | Json.bool b => cond b "true" "false"
  | Json.num n => toString n
  | Json.str s => s
  | Json.arr xs => jsJsonToStringArr xs
  | Json.obj _ => "[object Object]"

/-- JavaScript `Array.prototype.toString`: elements coerced and joined
with commas. -/
def jsJsonToStringArr : List Json → String
  | [] => ""
  | [x] => jsJsonToString x
  | x :: y :: rest => jsJsonToString x ++ "," ++ jsJsonToStringArr (y :: rest)

end

/-- `errorData.detail || JSON.stringify(errorData)` (page.tsx:77 and
page.tsx:165): the `detail` field when present and truthy, coerced to a
string, otherwise the serialized body. -/
def jsDetailOr (j : Json) : String :=
  match Json.getField j "detail" with
  | some d => if jsTruthy d then jsJsonToString d else jsonStringify j
  | none => jsonStringify j

/-- The `role` of a chat `Message` (page.tsx:7): the TypeScript union
`'user' | 'assistant'`. -/
inductive Role where
  | user : Role
  | assistant : Role
deriving Repr, DecidableEq

/-- The `Message` type of the frontend (page.tsx:6-10): role, text
content, optional source label. -/
structure Message where
  role : Role
  content : String
  source : Option String
deriving Repr, DecidableEq

/-- The string value of a role, as serialized into the request body. -/
def Role.toStr : Role → String
  | Role.user => "user"
  | Role.assistant => "assistant"

/-- `JSON.stringify` view of one message: the `source` key is omitted
when the field is `undefined`, exactly as `JSON.stringify` drops
`undefined` members. -/
def messageToJson (m : Message) : Json :=
  Json.obj
    ([("role", Json.str m.role.toStr), ("content", Json.str m.content)] ++
      (match m.source with
       | some s => [("source", Json.str s)]
       | none => []))

/-- The `DocumentInfo` record of the frontend (page.tsx:12-18).  The
MIME type field is called `type` in the source. -/
structure DocumentInfo where
  filename : String
  size : Nat
  type : String
  created_at : Nat
  last_modified : Nat
deriving Repr, DecidableEq

/-- The `UploadStatus` union of the frontend (page.tsx:20). -/
inductive UploadStatus where
  | idle : UploadStatus
  | uploading : UploadStatus
  | success : UploadStatus
  | error : UploadStatus
deriving Repr, DecidableEq

/-- The React state of the `Home` component (page.tsx:45-52): the pieces
of `useState` the handlers read and write.  Refs (`fileInputRef`,
`messagesEndRef`, `dropZoneRef`) carry no claim-relevant state. -/
structure ClientState where
  messages : List Message
  input : String
  isLoading : Bool
  documents : List DocumentInfo
  uploadStatus : UploadStatus
  isSidebarOpen : Bool
  dragActive : Bool
  error : Option String
deriving Repr, DecidableEq

/-- The sidebar renders `{error && <p ...>{error}</p>}` (page.tsx:334):
the rendered error text is exactly the error state when set. -/
def renderedError (s : ClientState) : Option String := s.error

/-- Outcome of the `fetch` to `POST /api/chat` as the frontend observes
it: an ok response whose JSON body carries `response` and an optional
`source`, or any failure (non-ok status, network error, or body parse
error) — all failures reach the same `catch` block (page.tsx:126). -/
inductive ChatOutcome where
  | ok (response : String) (source : Option String) : ChatOutcome
  | err : ChatOutcome
deriving Repr, DecidableEq

/-- JavaScript `String.prototype.trim` as the guard `!input.trim()`
invokes it: leading and trailing whitespace removed.  Defined over the
character list so that concrete inputs evaluate. -/
def jsTrim (s : String) : String :=
  String.mk (((s.toList.dropWhile Char.isWhitespace).reverse.dropWhile
    Char.isWhitespace).reverse)

/-- The fixed error sentence appended on a failed chat request
(page.tsx:130). -/
def chatErrorSentence : String :=
  "Sorry, I encountered an error. Please try again."

/-- `handleSendMessage` (page.tsx:95-135).  Returns the new state and
the JSON body posted to `POST /api/chat` (`none` when no request is
issued).  The guard `if (!input.trim()) return` stops everything when
the trimmed input is empty.  Otherwise the user message is appended,
the input is cleared, the loading flag is raised, the request body
`JSON.stringify({message: input, history: messages})` is built from the
pre-append state held in the closure, and depending on the outcome an
assistant message (response/source, or the fixed error sentence) is
appended; `finally` lowers the loading flag. -/
def handleSendMessage (s : ClientState) (outcome : ChatOutcome) :
    ClientState × Option Json :=
  if jsTrim s.input = "" then (s, none)
  else
    let userMessage : Message := { role := Role.user, content := s.input, source := none }
    let s1 := { s with messages := s.messages ++ [userMessage],
                       input := "", isLoading := true }
    let body : Json :=
      Json.obj [("message", Json.str s.input),
                ("history", Json.arr (s.messages.map messageToJson))]
    let s2 : ClientState :=
      match outcome with
      | ChatOutcome.ok response source =>
          { s1 with messages := s1.messages ++
              [{ role := Role.assistant, content := response, source := source }] }
      | ChatOutcome.err =>
          { s1 with messages := s1.messages ++
              [{ role := Role.assistant, content := chatErrorSentence, source := none }] }
    ({ s2 with isLoading := false }, some body)

/-- Outcome of the `fetch` to `GET /api/documents` as `fetchDocuments`
observes it (page.tsx:62-93): an ok response whose parsed body may or
may not carry a `documents` list; a non-ok response with its status,
status text, parsed JSON body when the body parses (`none` when
`response.json()` throws, in which case the raw text is read), and the
raw text; or a thrown error (network failure or parse failure of an ok
body) carrying `error.message` when the thrown value is an `Error`. -/
inductive DocsFetchOutcome where
  | ok (documents : Option (List DocumentInfo)) : DocsFetchOutcome
  | httpErr (status : Nat) (statusText : String)
      (jsonBody : Option Json) (textBody : String) : DocsFetchOutcome
  | netErr (errMsg : Option String) : DocsFetchOutcome
deriving Repr

/-- The error string `fetchDocuments` ends up passing to `setError`
(page.tsx:73-90): for a non-ok response, `errorData.detail ||
JSON.stringify(errorData)` when the body parses, else the body text if
non-empty, else `Failed to fetch documents: status statusText`; the
thrown `Error`'s message survives the outer catch unchanged, and a
non-`Error` throw yields the generic sentence. -/
def docsErrorMsg : DocsFetchOutcome → String
  | DocsFetchOutcome.ok _ => ""
  | DocsFetchOutcome.httpErr status statusText jsonBody textBody =>
      match jsonBody with
      | some j => jsDetailOr j
      | none =>
          if textBody = "" then
            "Failed to fetch documents: " ++ toString status ++ " " ++ statusText
          else textBody
  | DocsFetchOutcome.netErr (some m) => m
  | DocsFetchOutcome.netErr none => "Failed to load documents"

/-- `fetchDocuments` (page.tsx:62-93).  On success the documents state
becomes `data.documents || []`; the error state is not touched.  On any
failure the error state is set to the computed message and the
documents state is cleared to `[]` (page.tsx:90-91). -/
def fetchDocuments (s : ClientState) (outcome : DocsFetchOutcome) : ClientState :=
  match outcome with
  | DocsFetchOutcome.ok documents =>
      { s with documents := documents.getD [] }
  | o =>
      { s with error := some (docsErrorMsg o), documents := [] }

/-- A browser `File` as the upload handlers see it: name, text content,
byte size, MIME type. -/
structure FileModel where
  name : String
  content : String
  size : Nat
  type : String
deriving Repr, DecidableEq

/-- One entry of a `FormData` body: a file part or a plain string
field. -/
inductive FormEntry where
  | fileEntry (filename : String) (content : String) : FormEntry
  | strEntry (value : String) : FormEntry
deriving Repr, DecidableEq

/-- The `FormData` built by `uploadFile` (page.tsx:144-146): exactly the
entries `file` (the file itself) and `filename` (its name). -/
def uploadFormData (f : FileModel) : List (String × FormEntry) :=
  [("file", FormEntry.fileEntry f.name f.content),
   ("filename", FormEntry.strEntry f.name)]

/-- Outcome of the `fetch` to `POST /api/upload_document` as
`uploadFile` observes it (page.tsx:150-171): ok; non-ok with status,
status text, parsed JSON body when it parses and raw text otherwise; or
a thrown error with its `Error` message when the thrown value is an
`Error`. -/
inductive UploadOutcome where
  | ok : UploadOutcome
  | httpErr (status : Nat) (statusText : String)
      (jsonBody : Option Json) (textBody : String) : UploadOutcome
  | netErr (errMsg : Option String) : UploadOutcome
deriving Repr

/-- The error string `uploadFile` passes to `setError` on failure
(page.tsx:161-186): for a non-ok response, `errorData.detail ||
JSON.stringify(errorData)` when the body parses, else the body text if
non-empty, else `Server error: status statusText`; a thrown `Error`
keeps its message, and a non-`Error` throw yields the generic
sentence. -/
def uploadErrorMsg : UploadOutcome → String
  | UploadOutcome.ok => ""
  | UploadOutcome.httpErr status statusText jsonBody textBody =>
      match jsonBody with
      | some j => jsDetailOr j
      | none =>
          if textBody = "" then
            "Server error: " ++ toString status ++ " " ++ statusText
          else textBody
  | UploadOutcome.netErr (some m) => m
  | UploadOutcome.netErr none =>
      "Failed to upload document. Please check the console for details."

/-- Modelled from the spec: the in-memory document store of the FastAPI
backend (`api/index.py`, not under src/).  spec.md §3: the filename is
the unique key of the live in-memory map, a record is "created on
upload, overwritten on re-upload with same name, removed on delete
request".  Upload replaces the record in place when the filename is
already present and appends it otherwise. -/
def uploadDoc : List DocumentInfo → DocumentInfo → List DocumentInfo
  | [], d => [d]
  | e :: rest, d =>
      if e.filename = d.filename then d :: rest else e :: uploadDoc rest d

/-- Modelled from the spec: backend delete (`DELETE
/api/documents/{filename}` "removes one record", spec.md §6) removes
the record stored under the filename key. -/
def deleteDoc (store : List DocumentInfo) (filename : String) : List DocumentInfo :=
  store.filter (fun e => !(e.filename = filename))

/-- Modelled from the spec: `GET /api/documents` returns "list of
document metadata records" (spec.md §6) — the records of the live
map. -/
def listDocs (store : List DocumentInfo) : List DocumentInfo := store

/-- Modelled from the spec: the document record the backend creates for
an uploaded file — filename, raw content size, MIME type,
creation/modification timestamps (spec.md §3). -/
def docRecordOf (f : FileModel) (now : Nat) : DocumentInfo :=
  { filename := f.name, size := f.size, type := f.type,
    created_at := now, last_modified := now }

/-- `uploadFile` (page.tsx:137-193) composed with the spec-modelled
backend.  It first sets the status to `uploading` and clears the error
(page.tsx:141-142) and builds the `FormData`.  On an ok response the
backend store now holds the new record; `await fetchDocuments()` runs
before the status is reported as `success` (page.tsx:177-179), and per
spec.md §5 requests run to completion one at a time, so the refetch
sees exactly the updated store.  On failure the status becomes `error`
and the error state is set (page.tsx:184-186); the store is unchanged.
The `setTimeout` that later resets `success` to `idle` is outside the
call's own effect.  Returns the new client state and the new backend
store. -/
def uploadFile (s : ClientState) (store : List DocumentInfo)
    (f : FileModel) (now : Nat) (outcome : UploadOutcome) :
    ClientState × List DocumentInfo :=
  let s0 : ClientState := { s with uploadStatus := UploadStatus.uploading, error := none }
  match outcome with
  | UploadOutcome.ok =>
      let store' := uploadDoc store (docRecordOf f now)
      let s1 := fetchDocuments s0 (DocsFetchOutcome.ok (some (listDocs store')))
      ({ s1 with uploadStatus := UploadStatus.success }, store')
  | o =>
      ({ s0 with uploadStatus := UploadStatus.error,
                 error := some (uploadErrorMsg o) }, store)

/-- Outcome of the `fetch` to `DELETE /api/documents/{filename}` as
`handleDeleteDocument` observes it (page.tsx:243-250): ok; a non-ok
response whose body is `await response.json().catch(() => ({}))` — an
object in every case; or a thrown error with its `Error` message when
the thrown value is an `Error`. -/
inductive DeleteOutcome where
  | ok : DeleteOutcome
  | httpErr (errorData : Json) : DeleteOutcome
  | netErr (errMsg : Option String) : DeleteOutcome
deriving Repr

/-- The error string `handleDeleteDocument` passes to `setError`
(page.tsx:248-255): `errorData.detail || 'Failed to delete document'`
for a non-ok response, the thrown `Error`'s message for a network
failure, and the generic sentence for a non-`Error` throw. -/
def deleteErrorMsg : DeleteOutcome → String
  | DeleteOutcome.ok => ""
  | DeleteOutcome.httpErr errorData =>
      match Json.getField errorData "detail" with
      | some d => if jsTruthy d then jsJsonToString d else "Failed to delete document"
      | none => "Failed to delete document"
  | DeleteOutcome.netErr (some m) => m
  | DeleteOutcome.netErr none => "Failed to delete document"

/-- `handleDeleteDocument` (page.tsx:239-257) composed with the
spec-modelled backend.  A declined `confirm` dialog returns before
anything happens.  On an ok response the backend has removed the record
and `await fetchDocuments()` reloads the documents state from the
updated store (spec.md §5: no interleaving).  On failure only the error
state is set; the documents state and the store are unchanged. -/
def handleDeleteDocument (s : ClientState) (store : List DocumentInfo)
    (filename : String) (confirmed : Bool) (outcome : DeleteOutcome) :
    ClientState × List DocumentInfo :=
  if !confirmed then (s, store)
  else
    match outcome with
    | DeleteOutcome.ok =>
        let store' := deleteDoc store filename
        (fetchDocuments s (DocsFetchOutcome.ok (some (listDocs store'))), store')
    | o => ({ s with error := some (deleteErrorMsg o) }, store)

/-- Modelled from the spec: the chat endpoint of the FastAPI backend
(`api/index.py`, not under src/).  spec.md §6 gives the contract
`{message, history} → {response, source?}` and spec.md §8 states that
"a chat request returns a non-empty response string"; the text coming
back from the generation API is an input here, and a request completes
successfully (ok) only with a non-empty `response`, anything else being
an error status. -/
def backendChat (generated : String) (source : Option String) : ChatOutcome :=
  if generated = "" then ChatOutcome.err else ChatOutcome.ok generated source

/-- One mutation of the backend document store: an upload or a delete
request. -/
inductive StoreOp where
  | upload (d : DocumentInfo) : StoreOp
  | delete (filename : String) : StoreOp
deriving Repr, DecidableEq

/-- Apply one store operation to the spec-modelled in-memory map. -/
def applyOp (store : List DocumentInfo) : StoreOp → List DocumentInfo
  | StoreOp.upload d => uploadDoc store d
  | StoreOp.delete filename => deleteDoc store filename

/-- The store reached from the empty map (a fresh serverless instance,
spec.md §3/§5) by a sequence of upload and delete requests. -/
def runOps (ops : List StoreOp) : List DocumentInfo :=
  ops.foldl applyOp []

/-- The request the proxy route receives (`pages/api/[...path].ts`,
src/unnamed/part_000:277-305): method, the catch-all `path` segments of
`req.query`, the raw bytes the client put on the wire (e.g. a multipart
form payload), and `req.body` — the framework body parser's output,
which is a JSON value for JSON requests and absent (`undefined`) for a
multipart body the JSON body parser does not understand. -/
structure ProxyRequest where
  method : String
  path : List String
  rawBody : String
  parsedBody : Option Json

/-- The target URL the handler builds:
`${apiUrl}/api/${path ? path.join('/') : ''}`. -/
def proxyTargetUrl (apiUrl : String) (req : ProxyRequest) : String :=
  apiUrl ++ "/api/" ++ String.intercalate "/" req.path

/-- The request the handler's `fetch` actually sends upstream: the
method is forwarded, and the body is
`req.method !== 'GET' && req.method !== 'HEAD' ? JSON.stringify(req.body) : undefined`
— a JSON re-serialization of the parsed body, never the raw bytes
(`JSON.stringify(undefined)` is `undefined`, so an unparsed body is
dropped entirely). -/
structure ForwardedRequest where
  url : String
  method : String
  body : Option String
deriving Repr, DecidableEq

/-- The forwarding half of the proxy `handler`
(src/unnamed/part_000:286-294). -/
def proxyForward (apiUrl : String) (req : ProxyRequest) : ForwardedRequest :=
  { url := proxyTargetUrl apiUrl req,
    method := req.method,
    body :=
      if req.method = "GET" ∨ req.method = "HEAD" then none
      else req.parsedBody.map jsonStringify }

/-- What the proxy observes of its upstream `fetch`: a completed
exchange (`fetch` returned and `response.json()` parsed) with the
backend's status and JSON body, or a failure of either step, which
lands in the `catch` block. -/
inductive BackendFetch where
  | completed (status : Nat) (body : Json) : BackendFetch
  | failed : BackendFetch

/-- The response the proxy route sends back to the browser. -/
structure ProxyResult where
  status : Nat
  body : Json

/-- The response half of the proxy `handler`
(src/unnamed/part_000:296-304): `res.status(response.status).json(data)`
on a completed exchange, and
`res.status(500).json({ error: 'Internal Server Error' })` in the
`catch` block. -/
def handler (backend : BackendFetch) : ProxyResult :=
  match backend with
  | BackendFetch.completed status body => { status := status, body := body }
  | BackendFetch.failed =>
      { status := 500,
        body := Json.obj [("error", Json.str "Internal Server Error")] }

/-- A concrete multipart upload request as it reaches the proxy route:
the browser put a `multipart/form-data` payload on the wire, and the
framework's JSON body parser leaves `req.body` unset for it. -/
def multipartUploadReq : ProxyRequest :=
  { method := "POST",
    path := ["upload_document"],
    rawBody := "--boundary\r\nContent-Disposition: form-data; name=\"file\"; filename=\"notes.txt\"\r\n\r\nhello rag\r\n--boundary--\r\n",
    parsedBody := none }

/-- A concrete client state with pending input, used to instantiate the
handler theorems. -/
def sampleState : ClientState :=
  { messages := [], input := "hi", isLoading := false, documents := [],
    uploadStatus := UploadStatus.idle, isSidebarOpen := false,
    dragActive := false, error := none }

/-- A concrete client state whose input is whitespace only. -/
def blankInputState : ClientState :=
  { sampleState with input := "   " }

/-- A concrete file used to instantiate the upload theorems. -/
def sampleFile : FileModel :=
  { name := "notes.txt", content := "hello rag", size := 9, type := "text/plain" }

/-- Concrete document records used to instantiate the store theorems. -/
def docA : DocumentInfo :=
  { filename := "a.txt", size := 3, type := "text/plain",
    created_at := 10, last_modified := 10 }

/-- Second concrete document record. -/
def docB : DocumentInfo :=
  { filename := "b.txt", size := 4, type := "text/plain",
    created_at := 11, last_modified := 11 }

/-- A re-upload of `a.txt` with new content metadata. -/
def docA2 : DocumentInfo :=
  { filename := "a.txt", size := 7, type := "text/plain",
    created_at := 12, last_modified := 12 }

/-- An uploaded record always appears in the store after `uploadDoc`. -/
theorem mem_uploadDoc (store : List DocumentInfo) (d : DocumentInfo) :
    d ∈ uploadDoc store d := by
  induction store with
  | nil => simp [uploadDoc]
  | cons e rest ih =>
      by_cases h : e.filename = d.filename
      · simp [uploadDoc, h]
      · simp only [uploadDoc, if_neg h]
        exact List.mem_cons_of_mem _ ih

/-- A filename in the store after `uploadDoc` was already there or is the
uploaded one. -/
theorem mem_map_filename_uploadDoc (store : List DocumentInfo)
    (d : DocumentInfo) (x : String)
    (hx : x ∈ (uploadDoc store d).map DocumentInfo.filename) :
    x ∈ store.map DocumentInfo.filename ∨ x = d.filename := by
  induction store with
  | nil =>
      simp [uploadDoc] at hx
      exact Or.inr hx
  | cons e rest ih =>
      by_cases h : e.filename = d.filename
      · simp only [uploadDoc, if_pos h, List.map_cons, List.mem_cons] at hx
        rcases hx with hx | hx
        · exact Or.inr hx
        · exact Or.inl (by rw [List.map_cons]; exact List.mem_cons_of_mem _ hx)
      · simp only [uploadDoc, if_neg h, List.map_cons, List.mem_cons] at hx
        rcases hx with hx | hx
        · exact Or.inl (by rw [List.map_cons, hx]; exact List.mem_cons_self _ _)
        · rcases ih hx with h' | h'
          · exact Or.inl (by rw [List.map_cons]; exact List.mem_cons_of_mem _ h')
          · exact Or.inr h'

/-- `uploadDoc` preserves distinctness of the filename keys. -/
theorem uploadDoc_map_filename_nodup (store : List DocumentInfo)
    (d : DocumentInfo) (h : (store.map DocumentInfo.filename).Nodup) :
    ((uploadDoc store d).map DocumentInfo.filename).Nodup := by
  induction store with
  | nil => simp [uploadDoc]
  | cons e rest ih =>
      rw [List.map_cons, List.nodup_cons] at h
      by_cases he : e.filename = d.filename
      · simp only [uploadDoc, if_pos he, List.map_cons, List.nodup_cons]
        exact ⟨he ▸ h.1, h.2⟩
      · simp only [uploadDoc, if_neg he, List.map_cons, List.nodup_cons]
        refine ⟨?_, ih h.2⟩
        intro hmem
        rcases mem_map_filename_uploadDoc rest d e.filename hmem with h' | h'
        · exact h.1 h'
        · exact he h'

/-- `deleteDoc` preserves distinctness of the filename keys. -/
theorem deleteDoc_map_filename_nodup (store : List DocumentInfo)
    (filename : String) (h : (store.map DocumentInfo.filename).Nodup) :
    ((deleteDoc store filename).map DocumentInfo.filename).Nodup :=
  h.sublist ((List.filter_sublist store).map DocumentInfo.filename)

/-- Every store operation preserves distinctness of the filename keys. -/
theorem applyOp_map_filename_nodup (store : List DocumentInfo) (op : StoreOp)
    (h : (store.map DocumentInfo.filename).Nodup) :
    ((applyOp store op).map DocumentInfo.filename).Nodup := by
  cases op with
  | upload d => exact uploadDoc_map_filename_nodup store d h
  | delete filename => exact deleteDoc_map_filename_nodup store filename h

/-- Folding store operations preserves distinctness of filename keys. -/
theorem foldl_applyOp_map_filename_nodup (ops : List StoreOp) :
    ∀ store : List DocumentInfo, (store.map DocumentInfo.filename).Nodup →
      (((ops.foldl applyOp store)).map DocumentInfo.filename).Nodup := by
  induction ops with
  | nil => intro store h; simpa using h
  | cons op rest ih =>
      intro store h
      exact ih (applyOp store op) (applyOp_map_filename_nodup store op h)

/-- Every store reachable from a fresh instance has distinct filenames. -/
theorem runOps_map_filename_nodup (ops : List StoreOp) :
    ((runOps ops).map DocumentInfo.filename).Nodup :=
  foldl_applyOp_map_filename_nodup ops [] (by simp)

/-- Re-uploading an existing filename keeps the store size: the record is
replaced, not added. -/
theorem uploadDoc_length_of_mem (store : List DocumentInfo) (d : DocumentInfo)
    (h : d.filename ∈ store.map DocumentInfo.filename) :
    (uploadDoc store d).length = store.length := by
  induction store with
  | nil => simp at h
  | cons e rest ih =>
      by_cases he : e.filename = d.filename
      · simp [uploadDoc, he]
      · simp only [List.map_cons, List.mem_cons] at h
        rcases h with h | h
        · exact absurd h.symm he
        · simp [uploadDoc, he, ih h]

/-- In a store with distinct filenames, the only record carrying the
uploaded filename after `uploadDoc` is the uploaded record itself. -/
theorem uploadDoc_unique (store : List DocumentInfo) (d : DocumentInfo)
    (h : (store.map DocumentInfo.filename).Nodup) :
    ∀ e ∈ uploadDoc store d, e.filename = d.filename → e = d := by
  induction store with
  | nil =>
      intro e he hfn
      simp [uploadDoc] at he
      exact he
  | cons e0 rest ih =>
      rw [List.map_cons, List.nodup_cons] at h
      intro e he hfn
      by_cases h0 : e0.filename = d.filename
      · simp only [uploadDoc, if_pos h0, List.mem_cons] at he
        rcases he with he | he
        · exact he
        · have hm : e.filename ∈ rest.map DocumentInfo.filename :=
            List.mem_map_of_mem DocumentInfo.filename he
          rw [hfn, ← h0] at hm
          exact absurd hm h.1
      · simp only [uploadDoc, if_neg h0, List.mem_cons] at he
        rcases he with he | he
        · exact absurd (he ▸ hfn) h0
        · exact ih h.2 e he hfn

/-- C1: for every chat submission whose input is not empty after
trimming, the frontend posts to `POST /api/chat` a JSON body with
exactly the fields `message` (the submitted text) and `history` (the
messages held in state before the new user message is appended), and on
an ok response it appends one assistant message whose content is the
body's `response` field and whose source is the body's optional
`source` field. -/
theorem chat_post_body_and_assistant_append (s : ClientState) (r : String)
    (src : Option String) (h : ¬ jsTrim s.input = "") :
    (handleSendMessage s (ChatOutcome.ok r src)).2 =
      some (Json.obj [("message", Json.str s.input),
                      ("history", Json.arr (s.messages.map messageToJson))]) ∧
    (handleSendMessage s (ChatOutcome.ok r src)).1.messages =
      s.messages ++
        [{ role := Role.user, content := s.input, source := none },
         { role := Role.assistant, content := r, source := src }] := by
  unfold handleSendMessage
  rw [if_neg h]
  exact ⟨rfl, by simp⟩

/-- Witness for C1 at a concrete state with input `"hi"`. -/
theorem chat_post_body_and_assistant_append_witness :
    (¬ jsTrim sampleState.input = "") ∧
    (handleSendMessage sampleState (ChatOutcome.ok "42" (some "a.txt"))).1.messages =
      sampleState.messages ++
        [{ role := Role.user, content := "hi", source := none },
         { role := Role.assistant, content := "42", source := some "a.txt" }] :=
  ⟨by decide,
   (chat_post_body_and_assistant_append sampleState "42" (some "a.txt") (by decide)).2⟩

/-- C9: submitting the chat form with input that is empty or
whitespace-only is a no-op: the whole state is returned unchanged and no
request body is posted. -/
theorem empty_input_noop (s : ClientState) (outcome : ChatOutcome)
    (h : jsTrim s.input = "") :
    handleSendMessage s outcome = (s, none) := by
  unfold handleSendMessage
  rw [if_pos h]

/-- Witness for C9 at a concrete whitespace-only input. -/
theorem empty_input_noop_witness :
    jsTrim blankInputState.input = "" ∧
    handleSendMessage blankInputState ChatOutcome.err = (blankInputState, none) :=
  ⟨by decide, empty_input_noop blankInputState ChatOutcome.err (by decide)⟩

/-- C5: every chat failure and every upload failure is reported to the
UI as a plain error string: a failed chat request appends an assistant
message whose content is the fixed error sentence, and a failed upload
sets the error state — rendered by the sidebar — to the computed error
string (the server's `detail`, the response text, or a generic
message). -/
theorem failures_reported_as_strings (s : ClientState)
    (h : ¬ jsTrim s.input = "") (store : List DocumentInfo) (f : FileModel)
    (now : Nat) (o : UploadOutcome) (ho : o ≠ UploadOutcome.ok) :
    (handleSendMessage s ChatOutcome.err).1.messages =
      s.messages ++
        [{ role := Role.user, content := s.input, source := none },
         { role := Role.assistant, content := chatErrorSentence, source := none }] ∧
    renderedError (uploadFile s store f now o).1 = some (uploadErrorMsg o) := by
  constructor
  · unfold handleSendMessage
    rw [if_neg h]
    simp
  · cases o with
    | ok => exact absurd rfl ho
    | httpErr status statusText jsonBody textBody => rfl
    | netErr m => rfl

/-- Witness for C5 at a concrete failed upload. -/
theorem failures_reported_as_strings_witness :
    (¬ jsTrim sampleState.input = "") ∧
    (UploadOutcome.netErr (some "offline") ≠ UploadOutcome.ok) ∧
    renderedError
      (uploadFile sampleState [] sampleFile 10 (UploadOutcome.netErr (some "offline"))).1 =
      some "offline" :=
  ⟨by decide, fun hh => UploadOutcome.noConfusion hh,
   (failures_reported_as_strings sampleState (by decide) [] sampleFile 10
      (UploadOutcome.netErr (some "offline")) (fun hh => UploadOutcome.noConfusion hh)).2⟩

/-- C8: every successfully completed chat request carries a non-empty
response string: an ok outcome of the spec-modelled backend has a
non-empty `response`, and the frontend appends exactly that string as
the assistant message content. -/
theorem chat_response_nonempty (g : String) (gsrc : Option String)
    (r : String) (rs : Option String) (s : ClientState)
    (h : ¬ jsTrim s.input = "")
    (hb : backendChat g gsrc = ChatOutcome.ok r rs) :
    r ≠ "" ∧
    (handleSendMessage s (ChatOutcome.ok r rs)).1.messages =
      s.messages ++
        [{ role := Role.user, content := s.input, source := none },
         { role := Role.assistant, content := r, source := rs }] := by
  constructor
  · unfold backendChat at hb
    by_cases hg : g = ""
    · rw [if_pos hg] at hb
      exact absurd hb (fun hh => ChatOutcome.noConfusion hh)
    · rw [if_neg hg] at hb
      injection hb with h1 h2
      exact h1 ▸ hg
  · unfold handleSendMessage
    rw [if_neg h]
    simp

/-- Witness for C8 at a concrete generated answer. -/
theorem chat_response_nonempty_witness :
    (¬ jsTrim sampleState.input = "") ∧
    backendChat "hello" none = ChatOutcome.ok "hello" none ∧
    "hello" ≠ "" :=
  ⟨by decide, rfl,
   (chat_response_nonempty "hello" none "hello" none sampleState (by decide) rfl).1⟩

/-- C10: when fetching the document list fails (non-ok status or
network/parse error), `fetchDocuments` clears the documents state to the
empty list and sets the error state to the computed failure message. -/
theorem fetch_docs_failure_clears_and_reports (s : ClientState)
    (o : DocsFetchOutcome) (ho : ∀ docs, o ≠ DocsFetchOutcome.ok docs) :
    (fetchDocuments s o).documents = [] ∧
    (fetchDocuments s o).error = some (docsErrorMsg o) := by
  cases o with
  | ok docs => exact absurd rfl (ho docs)
  | httpErr status statusText jsonBody textBody => exact ⟨rfl, rfl⟩
  | netErr m => exact ⟨rfl, rfl⟩

/-- Witness for C10 at a concrete network failure. -/
theorem fetch_docs_failure_witness :
    (∀ docs, DocsFetchOutcome.netErr (some "backend down") ≠ DocsFetchOutcome.ok docs) ∧
    (fetchDocuments sampleState (DocsFetchOutcome.netErr (some "backend down"))).documents = [] ∧
    (fetchDocuments sampleState (DocsFetchOutcome.netErr (some "backend down"))).error =
      some "backend down" :=
  ⟨fun _ hh => DocsFetchOutcome.noConfusion hh,
   (fetch_docs_failure_clears_and_reports sampleState
      (DocsFetchOutcome.netErr (some "backend down"))
      (fun _ hh => DocsFetchOutcome.noConfusion hh)).1,
   (fetch_docs_failure_clears_and_reports sampleState
      (DocsFetchOutcome.netErr (some "backend down"))
      (fun _ hh => DocsFetchOutcome.noConfusion hh)).2⟩

/-- C3: after an upload request completes successfully, the just-uploaded
document appears in the subsequent document listing: `uploadFile` on an
ok response re-fetches the documents before setting the status to
`success`, the documents state becomes exactly the list returned by the
(spec-modelled) server, and that list contains the uploaded filename. -/
theorem upload_then_list_contains (s : ClientState)
    (store : List DocumentInfo) (f : FileModel) (now : Nat) :
    (uploadFile s store f now UploadOutcome.ok).1.documents =
      listDocs (uploadDoc store (docRecordOf f now)) ∧
    f.name ∈
      ((uploadFile s store f now UploadOutcome.ok).1.documents.map
        DocumentInfo.filename) ∧
    (uploadFile s store f now UploadOutcome.ok).1.uploadStatus =
      UploadStatus.success := by
  refine ⟨rfl, ?_, rfl⟩
  show f.name ∈ (listDocs (uploadDoc store (docRecordOf f now))).map DocumentInfo.filename
  exact List.mem_map_of_mem DocumentInfo.filename
    (mem_uploadDoc store (docRecordOf f now))

/-- C4: a confirmed, successful delete removes exactly that one record:
the refetched documents state is the store without the deleted filename,
the deleted filename no longer occurs in it, and every other record is
still present. -/
theorem delete_removes_exactly_one (s : ClientState)
    (store : List DocumentInfo) (filename : String) :
    (handleDeleteDocument s store filename true DeleteOutcome.ok).1.documents =
      deleteDoc store filename ∧
    filename ∉
      ((handleDeleteDocument s store filename true DeleteOutcome.ok).1.documents.map
        DocumentInfo.filename) ∧
    ∀ e ∈ store, e.filename ≠ filename →
      e ∈ (handleDeleteDocument s store filename true DeleteOutcome.ok).1.documents := by
  refine ⟨rfl, ?_, ?_⟩
  · show filename ∉ (deleteDoc store filename).map DocumentInfo.filename
    intro hmem
    rcases List.mem_map.mp hmem with ⟨e, he, hfe⟩
    rcases List.mem_filter.mp he with ⟨_, hpred⟩
    simp only [Bool.not_eq_true', decide_eq_false_iff_not] at hpred
    exact hpred hfe
  · intro e he hne
    show e ∈ deleteDoc store filename
    exact List.mem_filter.mpr ⟨he, by simp [hne]⟩

/-- Witness for C4: deleting `a.txt` keeps the unrelated `b.txt`. -/
theorem delete_removes_exactly_one_witness :
    (docB ∈ [docA, docB] ∧ docB.filename ≠ "a.txt") ∧
    docB ∈ (handleDeleteDocument sampleState [docA, docB] "a.txt" true
      DeleteOutcome.ok).1.documents :=
  ⟨⟨by decide, by decide⟩,
   (delete_removes_exactly_one sampleState [docA, docB] "a.txt").2.2 docB
     (by decide) (by decide)⟩

/-- C7: filename uniqueness is an invariant of the document collection:
in every documents state the frontend obtains from the (spec-modelled)
store — reached from a fresh instance by any sequence of upload and
delete requests — each filename occurs at most once; and re-uploading an
existing filename overwrites the record rather than adding a second one:
the store keeps its size, contains the new record, and carries no other
record under that filename. -/
theorem documents_filename_unique :
    (∀ (s : ClientState) (ops : List StoreOp),
      (((fetchDocuments s
          (DocsFetchOutcome.ok (some (listDocs (runOps ops))))).documents).map
        DocumentInfo.filename).Nodup) ∧
    (∀ (store : List DocumentInfo) (d : DocumentInfo),
      (store.map DocumentInfo.filename).Nodup →
      d.filename ∈ store.map DocumentInfo.filename →
      (uploadDoc store d).length = store.length ∧
      d ∈ uploadDoc store d ∧
      ∀ e ∈ uploadDoc store d, e.filename = d.filename → e = d) := by
  constructor
  · intro s ops
    show ((listDocs (runOps ops)).map DocumentInfo.filename).Nodup
    exact runOps_map_filename_nodup ops
  · intro store d h hmem
    exact ⟨uploadDoc_length_of_mem store d hmem, mem_uploadDoc store d,
           uploadDoc_unique store d h⟩

/-- Witness for C7: re-uploading `a.txt` over a two-document store keeps
the size at two and stores the new record. -/
theorem documents_filename_unique_witness :
    (([docA, docB].map DocumentInfo.filename).Nodup ∧
      docA2.filename ∈ [docA, docB].map DocumentInfo.filename) ∧
    (uploadDoc [docA, docB] docA2).length = [docA, docB].length ∧
    docA2 ∈ uploadDoc [docA, docB] docA2 :=
  ⟨⟨by decide, by decide⟩,
   (documents_filename_unique.2 [docA, docB] docA2 (by decide) (by decide)).1,
   (documents_filename_unique.2 [docA, docB] docA2 (by decide) (by decide)).2.1⟩

/-- C6 (amended): the proxy handler forwards the backend's status code
and JSON body unchanged on every completed backend response, and on any
fetch/parse failure it returns status 500 with a JSON body whose single
field is `error` (not `message`), carrying the fixed string
`Internal Server Error`. -/
theorem proxy_forwards_status_and_error_field :
    (∀ (status : Nat) (body : Json),
      handler (BackendFetch.completed status body) =
        { status := status, body := body }) ∧
    handler BackendFetch.failed =
      { status := 500,
        body := Json.obj [("error", Json.str "Internal Server Error")] } :=
  ⟨fun _ _ => rfl, rfl⟩

/-- C6 (counterexample): on a fetch/parse failure the proxy's 500
response body carries no `message` field at all — its only field is
`error` — so the claim that the failure body contains a `message` field
is false at this concrete input. -/
theorem proxy_error_body_has_no_message_field :
    (handler BackendFetch.failed).status = 500 ∧
    Json.getField (handler BackendFetch.failed).body "message" = none ∧
    Json.getField (handler BackendFetch.failed).body "error" =
      some (Json.str "Internal Server Error") :=
  ⟨rfl, rfl, rfl⟩

/-- C2 (code bug): the frontend does build the multipart `FormData` with
exactly the `file` and `filename` entries, but the proxy handler does
not preserve a multipart body: it forwards
`JSON.stringify(req.body)` — and for a multipart request, whose payload
the JSON body parser leaves unparsed, the forwarded body is empty, so
the raw multipart payload never reaches the backend. -/
theorem proxy_drops_multipart_body :
    uploadFormData sampleFile =
      [("file", FormEntry.fileEntry "notes.txt" "hello rag"),
       ("filename", FormEntry.strEntry "notes.txt")] ∧
    multipartUploadReq.method = "POST" ∧
    ¬ multipartUploadReq.rawBody = "" ∧
    (proxyForward "http://localhost:8000" multipartUploadReq).body = none :=
  ⟨rfl, rfl, by decide, rfl⟩

end RagChat
